import Mathlib

/-!
Verification of the mock in-memory CRUD store of the repository
(`src/react-19/demo/src/api/mockApi.js`).

The store holds two module-level collections (`todoListsData`,
`todoItemsData`) and two counters (`nextListId`, `nextItemId`).  Each
operation awaits a fixed artificial delay and then performs one
synchronous in-memory mutation; the delay carries no semantic weight, so
we embed each operation as a pure function from the store state (plus the
operation's inputs, with the `new Date().toISOString()` timestamp passed
explicitly) to its result and the new store state.  Operations that
`throw new Error(...)` are embedded with `Except`; all other operations
are total by construction, mirroring the fact that they have no throw
path.  JS in-place object mutation through `find` is embedded by
replacing the first matching element of the collection.
-/

namespace MockApi

/-- A todo List object: `{ id, title, createdAt }` as built by `createList`. -/
structure TodoList where
  id : Nat
  title : String
  createdAt : String
deriving DecidableEq, Repr

/-- A todo Item object: `{ id, listId, title, priority, completed, createdAt }`
as built by `createItem`.  The code treats `priority` as an opaque string. -/
structure TodoItem where
  id : Nat
  listId : Nat
  title : String
  priority : String
  completed : Bool
  createdAt : String
deriving DecidableEq, Repr

/-- The module-level mutable state of `mockApi.js`:
`todoListsData`, `todoItemsData`, `nextListId`, `nextItemId`. -/
structure Store where
  todoListsData : List TodoList
  todoItemsData : List TodoItem
  nextListId : Nat
  nextItemId : Nat
deriving DecidableEq, Repr

/-- The state at module load: both collections empty, both counters 1. -/
def initialStore : Store :=
  { todoListsData := [], todoItemsData := [], nextListId := 1, nextItemId := 1 }

/-- The single error kind: `throw new Error('... not found')`. -/
inductive ApiError where
  | notFound (msg : String)
deriving DecidableEq, Repr

/-- The `{ success: true }` acknowledgement returned by the two deletes. -/
structure DeleteResult where
  success : Bool
deriving DecidableEq, Repr

/-- `Object.assign(item, updates)` restricted to the Item schema: every
field of the updates object overwrites the corresponding field of the
item; absent fields are left alone.  `Object.assign` does not protect any
field, so `id` and `createdAt` are overwritable like the rest. -/
structure ItemUpdates where
  id : Option Nat
  listId : Option Nat
  title : Option String
  priority : Option String
  completed : Option Bool
  createdAt : Option String
deriving DecidableEq, Repr

/-- The merge performed by `Object.assign(item, updates)`. -/
def applyUpdates (i : TodoItem) (u : ItemUpdates) : TodoItem :=
  { id := u.id.getD i.id,
    listId := u.listId.getD i.listId,
    title := u.title.getD i.title,
    priority := u.priority.getD i.priority,
    completed := u.completed.getD i.completed,
    createdAt := u.createdAt.getD i.createdAt }

/-- Replace the first element satisfying `p` by its image under `f`,
leaving everything else in place: the effect on the collection of JS
`const x = xs.find(p); mutate(x)`. -/
def setFirst (p : α → Bool) (f : α → α) : List α → List α
  | [] => []
  | x :: xs => if p x then f x :: xs else x :: setFirst p f xs

/-- `getAllLists`: `return [...todoListsData]` — a fresh array with the
same elements, in insertion order.  (Value semantics; the sharing of the
element objects is studied separately in the `RefModel` namespace.) -/
def getAllLists (s : Store) : List TodoList :=
  s.todoListsData

/-- `createList(title)`: pushes `{ id: nextListId++, title, createdAt }`
and returns the new list.  The timestamp is passed in as `now`. -/
def createList (s : Store) (title now : String) : TodoList × Store :=
  let newList : TodoList := { id := s.nextListId, title := title, createdAt := now }
  (newList,
    { s with todoListsData := s.todoListsData ++ [newList], nextListId := s.nextListId + 1 })

/-- `updateList(id, title)`: finds the first list with this id, throws
`'List not found'` if there is none, otherwise mutates its `title` in
place and returns it. -/
def updateList (s : Store) (id : Nat) (title : String) : Except ApiError (TodoList × Store) :=
  match s.todoListsData.find? (fun l => l.id == id) with
  | none => Except.error (ApiError.notFound "List not found")
  | some l =>
    Except.ok ({ l with title := title },
      { s with todoListsData :=
          setFirst (fun l => l.id == id) (fun l => { l with title := title }) s.todoListsData })

/-- `deleteList(id)`: filters the list out of `todoListsData` and filters
every item with a matching `listId` out of `todoItemsData`, then returns
`{ success: true }`. -/
def deleteList (s : Store) (id : Nat) : DeleteResult × Store :=
  ({ success := true },
    { s with todoListsData := s.todoListsData.filter (fun l => l.id != id),
             todoItemsData := s.todoItemsData.filter (fun item => item.listId != id) })

/-- `getItemsByList(listId)`: the items whose `listId` matches, in
insertion order (a fresh array produced by `filter`). -/
def getItemsByList (s : Store) (listId : Nat) : List TodoItem :=
  s.todoItemsData.filter (fun item => item.listId == listId)

/-- `createItem(listId, title, priority)`: pushes
`{ id: nextItemId++, listId, title, priority, completed: false, createdAt }`
and returns the new item.  No check that `listId` exists. -/
def createItem (s : Store) (listId : Nat) (title priority now : String) : TodoItem × Store :=
  let newItem : TodoItem :=
    { id := s.nextItemId, listId := listId, title := title, priority := priority,
      completed := false, createdAt := now }
  (newItem,
    { s with todoItemsData := s.todoItemsData ++ [newItem], nextItemId := s.nextItemId + 1 })

/-- `updateItem(id, updates)`: finds the first item with this id, throws
`'Item not found'` if there is none, otherwise `Object.assign`s the
updates onto it in place and returns it. -/
def updateItem (s : Store) (id : Nat) (u : ItemUpdates) : Except ApiError (TodoItem × Store) :=
  match s.todoItemsData.find? (fun i => i.id == id) with
  | none => Except.error (ApiError.notFound "Item not found")
  | some i =>
    Except.ok (applyUpdates i u,
      { s with todoItemsData :=
          setFirst (fun i => i.id == id) (fun i => applyUpdates i u) s.todoItemsData })

/-- `deleteItem(id)`: filters the item out and returns `{ success: true }`. -/
def deleteItem (s : Store) (id : Nat) : DeleteResult × Store :=
  ({ success := true },
    { s with todoItemsData := s.todoItemsData.filter (fun i => i.id != id) })

/-- `toggleItem(id)`: finds the first item with this id, throws
`'Item not found'` if there is none, otherwise flips `completed` in place
and returns it. -/
def toggleItem (s : Store) (id : Nat) : Except ApiError (TodoItem × Store) :=
  match s.todoItemsData.find? (fun i => i.id == id) with
  | none => Except.error (ApiError.notFound "Item not found")
  | some i =>
    Except.ok ({ i with completed := !i.completed },
      { s with todoItemsData :=
          (setFirst (fun i => i.id == id) (fun i => { i with completed := !i.completed })
            s.todoItemsData) })

/-- One call against the store, with its inputs. -/
inductive Op where
  | createList (title now : String)
  | updateList (id : Nat) (title : String)
  | deleteList (id : Nat)
  | createItem (listId : Nat) (title priority now : String)
  | updateItem (id : Nat) (u : ItemUpdates)
  | deleteItem (id : Nat)
  | toggleItem (id : Nat)
  | getAllLists
  | getItemsByList (listId : Nat)
deriving DecidableEq, Repr

/-- The state transition of one call: a rejected call (`throw` happens
before any mutation) leaves the state untouched; reads leave it untouched. -/
def applyOp (s : Store) : Op → Store
  | Op.createList t now => (createList s t now).2
  | Op.updateList id t =>
    match updateList s id t with
    | Except.ok (_, s') => s'
    | Except.error _ => s
  | Op.deleteList id => (deleteList s id).2
  | Op.createItem listId t p now => (createItem s listId t p now).2
  | Op.updateItem id u =>
    match updateItem s id u with
    | Except.ok (_, s') => s'
    | Except.error _ => s
  | Op.deleteItem id => (deleteItem s id).2
  | Op.toggleItem id =>
    match toggleItem s id with
    | Except.ok (_, s') => s'
    | Except.error _ => s
  | Op.getAllLists => s
  | Op.getItemsByList _ => s

/-- Run a sequence of calls from a state. -/
def runOps (s : Store) (ops : List Op) : Store :=
  ops.foldl applyOp s

/-! ### Helper lemmas about `setFirst` and `find?` -/

theorem setFirst_of_forall_not (p : α → Bool) (f : α → α) (l : List α)
    (h : ∀ x ∈ l, p x = false) : setFirst p f l = l := by
  induction l with
  | nil => rfl
  | cons x xs ih =>
    simp only [setFirst, h x (List.mem_cons_self x xs)]
    simp only [Bool.false_eq_true, if_false, List.cons.injEq, true_and]
    exact ih fun y hy => h y (List.mem_cons_of_mem x hy)

theorem setFirst_append_first (p : α → Bool) (f : α → α) (l1 l2 : List α) (a : α)
    (h1 : ∀ x ∈ l1, p x = false) (ha : p a = true) :
    setFirst p f (l1 ++ a :: l2) = l1 ++ f a :: l2 := by
  induction l1 with
  | nil => simp [setFirst, ha]
  | cons x xs ih =>
    simp only [List.cons_append, setFirst, h1 x (List.mem_cons_self x xs)]
    simp only [Bool.false_eq_true, if_false, List.cons.injEq, true_and]
    exact ih fun y hy => h1 y (List.mem_cons_of_mem x hy)

theorem find?_append_first (p : α → Bool) (l1 l2 : List α) (a : α)
    (h1 : ∀ x ∈ l1, p x = false) (ha : p a = true) :
    List.find? p (l1 ++ a :: l2) = some a := by
  induction l1 with
  | nil => simp [List.find?_cons_of_pos, ha]
  | cons x xs ih =>
    rw [List.cons_append, List.find?_cons_of_neg]
    · exact ih fun y hy => h1 y (List.mem_cons_of_mem x hy)
    · simp [h1 x (List.mem_cons_self x xs)]

theorem mem_setFirst (p : α → Bool) (f : α → α) (l : List α) (x : α)
    (hx : x ∈ setFirst p f l) : x ∈ l ∨ ∃ y ∈ l, p y = true ∧ x = f y := by
  induction l with
  | nil => simp [setFirst] at hx
  | cons a as ih =>
    by_cases hp : p a = true
    · simp only [setFirst, hp, if_true] at hx
      rcases List.mem_cons.mp hx with h | h
      · exact Or.inr ⟨a, List.mem_cons_self a as, hp, h⟩
      · exact Or.inl (List.mem_cons_of_mem a h)
    · simp only [setFirst, hp, if_false] at hx
      rcases List.mem_cons.mp hx with h | h
      · exact Or.inl (h ▸ List.mem_cons_self a as)
      · rcases ih h with h' | ⟨y, hy, hpy, hxy⟩
        · exact Or.inl (List.mem_cons_of_mem a h')
        · exact Or.inr ⟨y, List.mem_cons_of_mem a hy, hpy, hxy⟩

theorem map_setFirst_congr (p : α → Bool) (f : α → α) (g : α → β) (l : List α)
    (h : ∀ a, g (f a) = g a) : (setFirst p f l).map g = l.map g := by
  induction l with
  | nil => rfl
  | cons a as ih =>
    by_cases hp : p a = true
    · simp [setFirst, hp, h a]
    · simp [setFirst, hp, ih]


/-! ### Claim theorems on the value-semantics model -/

/-- C1: deleting a List cascades within the same operation — immediately
after `deleteList` on `L.id`, `getItemsByList` for `L.id` returns the
empty sequence and no Item left in the collection has `listId = L.id`. -/
theorem c1_cascade_delete (s : Store) (L : TodoList) (hL : L ∈ s.todoListsData) :
    getItemsByList (deleteList s L.id).2 L.id = [] ∧
    ∀ i ∈ (deleteList s L.id).2.todoItemsData, i.listId ≠ L.id := by
  constructor
  · rw [getItemsByList, List.filter_eq_nil_iff]
    intro i hi
    simp only [deleteList, List.mem_filter, bne_iff_ne, ne_eq] at hi
    simp [hi.2]
  · intro i hi
    simp only [deleteList, List.mem_filter, bne_iff_ne, ne_eq] at hi
    exact hi.2

theorem c1_cascade_delete_witness :
    (⟨1, "Groceries", "t"⟩ : TodoList) ∈
      (Store.mk [⟨1, "Groceries", "t"⟩] [⟨1, 1, "Milk", "P2", false, "t"⟩] 2 2).todoListsData ∧
    (getItemsByList
        (deleteList (Store.mk [⟨1, "Groceries", "t"⟩] [⟨1, 1, "Milk", "P2", false, "t"⟩] 2 2)
          (TodoList.mk 1 "Groceries" "t").id).2 (TodoList.mk 1 "Groceries" "t").id = [] ∧
      ∀ i ∈ (deleteList (Store.mk [⟨1, "Groceries", "t"⟩] [⟨1, 1, "Milk", "P2", false, "t"⟩] 2 2)
          (TodoList.mk 1 "Groceries" "t").id).2.todoItemsData,
        i.listId ≠ (TodoList.mk 1 "Groceries" "t").id) :=
  ⟨by decide, c1_cascade_delete _ _ (by decide)⟩

/-- C5: both deletes are total and idempotent — each resolves with the
`{ success: true }` acknowledgement for any id, present or absent, and
repeating the same delete leaves the state of the first application
unchanged. -/
theorem c5_idempotent_deletes (s : Store) (idL idI : Nat) :
    (deleteList s idL).1 = { success := true } ∧
    (deleteItem s idI).1 = { success := true } ∧
    (deleteList (deleteList s idL).2 idL).2 = (deleteList s idL).2 ∧
    (deleteItem (deleteItem s idI).2 idI).2 = (deleteItem s idI).2 := by
  refine ⟨rfl, rfl, ?_, ?_⟩
  · simp [deleteList, List.filter_filter]
  · simp [deleteItem, List.filter_filter]

/-- C6: `createItem` succeeds for every input (also when no List has the
given `listId`), returns an Item carrying `nextItemId` as a fresh id, the
given `listId`, `title` and `priority`, `completed = false` and the
creation timestamp, appends it at the end of the item collection, bumps
only the item counter, and touches nothing else. -/
theorem c6_createItem (s : Store) (listId : Nat) (title priority now : String)
    (hfresh : ∀ i ∈ s.todoItemsData, i.id < s.nextItemId) :
    (createItem s listId title priority now).1 =
      { id := s.nextItemId, listId := listId, title := title, priority := priority,
        completed := false, createdAt := now } ∧
    (createItem s listId title priority now).2.todoItemsData =
      s.todoItemsData ++ [(createItem s listId title priority now).1] ∧
    (createItem s listId title priority now).1.id ∉ s.todoItemsData.map TodoItem.id ∧
    (createItem s listId title priority now).2.nextItemId = s.nextItemId + 1 ∧
    (createItem s listId title priority now).2.todoListsData = s.todoListsData ∧
    (createItem s listId title priority now).2.nextListId = s.nextListId := by
  refine ⟨rfl, rfl, ?_, rfl, rfl, rfl⟩
  intro hmem
  rcases List.mem_map.mp hmem with ⟨i, hi, hid⟩
  exact Nat.ne_of_lt (hfresh i hi) hid

theorem c6_createItem_witness :
    (∀ i ∈ (Store.mk [⟨1, "Groceries", "t"⟩] [⟨1, 1, "Milk", "P2", false, "t"⟩] 2 2).todoItemsData,
      i.id < (Store.mk [⟨1, "Groceries", "t"⟩] [⟨1, 1, "Milk", "P2", false, "t"⟩] 2 2).nextItemId) ∧
    ((createItem (Store.mk [⟨1, "Groceries", "t"⟩] [⟨1, 1, "Milk", "P2", false, "t"⟩] 2 2)
        7 "Eggs" "P1" "t2").1 =
      { id := (Store.mk [⟨1, "Groceries", "t"⟩] [⟨1, 1, "Milk", "P2", false, "t"⟩] 2 2).nextItemId,
        listId := 7, title := "Eggs", priority := "P1", completed := false, createdAt := "t2" } ∧
     (createItem (Store.mk [⟨1, "Groceries", "t"⟩] [⟨1, 1, "Milk", "P2", false, "t"⟩] 2 2)
        7 "Eggs" "P1" "t2").2.todoItemsData =
      (Store.mk [⟨1, "Groceries", "t"⟩] [⟨1, 1, "Milk", "P2", false, "t"⟩] 2 2).todoItemsData ++
        [(createItem (Store.mk [⟨1, "Groceries", "t"⟩] [⟨1, 1, "Milk", "P2", false, "t"⟩] 2 2)
          7 "Eggs" "P1" "t2").1] ∧
     (createItem (Store.mk [⟨1, "Groceries", "t"⟩] [⟨1, 1, "Milk", "P2", false, "t"⟩] 2 2)
        7 "Eggs" "P1" "t2").1.id ∉
      (Store.mk [⟨1, "Groceries", "t"⟩] [⟨1, 1, "Milk", "P2", false, "t"⟩] 2 2).todoItemsData.map
        TodoItem.id ∧
     (createItem (Store.mk [⟨1, "Groceries", "t"⟩] [⟨1, 1, "Milk", "P2", false, "t"⟩] 2 2)
        7 "Eggs" "P1" "t2").2.nextItemId =
      (Store.mk [⟨1, "Groceries", "t"⟩] [⟨1, 1, "Milk", "P2", false, "t"⟩] 2 2).nextItemId + 1 ∧
     (createItem (Store.mk [⟨1, "Groceries", "t"⟩] [⟨1, 1, "Milk", "P2", false, "t"⟩] 2 2)
        7 "Eggs" "P1" "t2").2.todoListsData =
      (Store.mk [⟨1, "Groceries", "t"⟩] [⟨1, 1, "Milk", "P2", false, "t"⟩] 2 2).todoListsData ∧
     (createItem (Store.mk [⟨1, "Groceries", "t"⟩] [⟨1, 1, "Milk", "P2", false, "t"⟩] 2 2)
        7 "Eggs" "P1" "t2").2.nextListId =
      (Store.mk [⟨1, "Groceries", "t"⟩] [⟨1, 1, "Milk", "P2", false, "t"⟩] 2 2).nextListId) :=
  ⟨by decide, c6_createItem _ 7 "Eggs" "P1" "t2" (by decide)⟩

/-- C10: the deletes remove exactly the matching entities — a List survives
`deleteList id` iff its id differs, an Item survives iff its `listId`
differs, an Item survives `deleteItem id` iff its id differs; survivors
are the very same objects in the same relative order (sublists), the other
collection of `deleteItem` is untouched, and neither counter moves. -/
theorem c10_delete_exact (s : Store) (idL idI : Nat) :
    (∀ l, l ∈ (deleteList s idL).2.todoListsData ↔ l ∈ s.todoListsData ∧ l.id ≠ idL) ∧
    (∀ i, i ∈ (deleteList s idL).2.todoItemsData ↔ i ∈ s.todoItemsData ∧ i.listId ≠ idL) ∧
    List.Sublist (deleteList s idL).2.todoListsData s.todoListsData ∧
    List.Sublist (deleteList s idL).2.todoItemsData s.todoItemsData ∧
    (deleteList s idL).2.nextListId = s.nextListId ∧
    (deleteList s idL).2.nextItemId = s.nextItemId ∧
    (∀ i, i ∈ (deleteItem s idI).2.todoItemsData ↔ i ∈ s.todoItemsData ∧ i.id ≠ idI) ∧
    List.Sublist (deleteItem s idI).2.todoItemsData s.todoItemsData ∧
    (deleteItem s idI).2.todoListsData = s.todoListsData ∧
    (deleteItem s idI).2.nextListId = s.nextListId ∧
    (deleteItem s idI).2.nextItemId = s.nextItemId := by
  refine ⟨?_, ?_, ?_, ?_, rfl, rfl, ?_, ?_, rfl, rfl, rfl⟩
  · intro l
    simp [deleteList, List.mem_filter, bne_iff_ne]
  · intro i
    simp [deleteList, List.mem_filter, bne_iff_ne]
  · exact List.filter_sublist _
  · exact List.filter_sublist _
  · intro i
    simp [deleteItem, List.mem_filter, bne_iff_ne]
  · exact List.filter_sublist _


/-- C8: toggling an existing Item returns it with `completed` negated and
every other field (`id`, `listId`, `title`, `priority`, `createdAt`)
unchanged, and touches no other Item: with the collection split around the
first Item carrying the id, only that spot changes, in place. -/
theorem c8_toggleItem (s : Store) (id0 : Nat) (l1 l2 : List TodoItem) (i : TodoItem)
    (hsplit : s.todoItemsData = l1 ++ i :: l2)
    (hfirst : ∀ j ∈ l1, j.id ≠ id0) (hi : i.id = id0) :
    toggleItem s id0 =
      Except.ok ({ i with completed := !i.completed },
        { s with todoItemsData := l1 ++ { i with completed := !i.completed } :: l2 }) := by
  have hp : ∀ j ∈ l1, (j.id == id0) = false := by
    intro j hj
    simpa using hfirst j hj
  have hpa : (i.id == id0) = true := by simpa using hi
  have hfind : s.todoItemsData.find? (fun j => j.id == id0) = some i := by
    rw [hsplit]
    exact find?_append_first _ _ _ _ hp hpa
  have hset : setFirst (fun j => j.id == id0) (fun j => { j with completed := !j.completed })
      s.todoItemsData = l1 ++ { i with completed := !i.completed } :: l2 := by
    rw [hsplit]
    exact setFirst_append_first _ _ _ _ _ hp hpa
  rw [toggleItem, hfind, hset]

theorem c8_toggleItem_witness :
    ((Store.mk [] [⟨1, 1, "Milk", "P2", false, "t"⟩, ⟨2, 1, "Eggs", "P1", true, "t"⟩] 1 3).todoItemsData
        = [⟨1, 1, "Milk", "P2", false, "t"⟩] ++ ⟨2, 1, "Eggs", "P1", true, "t"⟩ :: []) ∧
    (∀ j ∈ [(⟨1, 1, "Milk", "P2", false, "t"⟩ : TodoItem)], j.id ≠ 2) ∧
    (TodoItem.mk 2 1 "Eggs" "P1" true "t").id = 2 ∧
    toggleItem (Store.mk [] [⟨1, 1, "Milk", "P2", false, "t"⟩, ⟨2, 1, "Eggs", "P1", true, "t"⟩] 1 3) 2 =
      Except.ok
        ({ TodoItem.mk 2 1 "Eggs" "P1" true "t" with
            completed := !(TodoItem.mk 2 1 "Eggs" "P1" true "t").completed },
          { Store.mk [] [⟨1, 1, "Milk", "P2", false, "t"⟩, ⟨2, 1, "Eggs", "P1", true, "t"⟩] 1 3 with
              todoItemsData :=
                [⟨1, 1, "Milk", "P2", false, "t"⟩] ++
                  { TodoItem.mk 2 1 "Eggs" "P1" true "t" with
                      completed := !(TodoItem.mk 2 1 "Eggs" "P1" true "t").completed } :: [] }) :=
  ⟨by decide, by decide, by decide,
    c8_toggleItem _ 2 _ _ _ (by decide) (by decide) (by decide)⟩

/-- C4: `updateList`, `updateItem` and `toggleItem` reject (with the
NotFound error) exactly when no entity of the expected kind carries the
given id, and a rejected call leaves the whole store state — both
collections and both counters — untouched.  (The remaining operations
have no error value at all in their result type, mirroring the absence of
any throw path in the code.) -/
theorem c4_notFound_iff (s : Store) (idL idI : Nat) (t : String) (u : ItemUpdates) :
    ((∃ e, updateList s idL t = Except.error e) ↔ ∀ l ∈ s.todoListsData, l.id ≠ idL) ∧
    ((∃ e, updateItem s idI u = Except.error e) ↔ ∀ i ∈ s.todoItemsData, i.id ≠ idI) ∧
    ((∃ e, toggleItem s idI = Except.error e) ↔ ∀ i ∈ s.todoItemsData, i.id ≠ idI) ∧
    ((∃ e, updateList s idL t = Except.error e) → applyOp s (Op.updateList idL t) = s) ∧
    ((∃ e, updateItem s idI u = Except.error e) → applyOp s (Op.updateItem idI u) = s) ∧
    ((∃ e, toggleItem s idI = Except.error e) → applyOp s (Op.toggleItem idI) = s) := by
  have hiffL : (s.todoListsData.find? (fun l => l.id == idL) = none) ↔
      ∀ l ∈ s.todoListsData, l.id ≠ idL := by
    rw [List.find?_eq_none]
    simp
  have hiffI : (s.todoItemsData.find? (fun i => i.id == idI) = none) ↔
      ∀ i ∈ s.todoItemsData, i.id ≠ idI := by
    rw [List.find?_eq_none]
    simp
  refine ⟨?_, ?_, ?_, ?_, ?_, ?_⟩
  · rw [← hiffL, updateList]
    cases s.todoListsData.find? (fun l => l.id == idL) <;> simp
  · rw [← hiffI, updateItem]
    cases s.todoItemsData.find? (fun i => i.id == idI) <;> simp
  · rw [← hiffI, toggleItem]
    cases s.todoItemsData.find? (fun i => i.id == idI) <;> simp
  · rintro ⟨e, he⟩
    simp [applyOp, he]
  · rintro ⟨e, he⟩
    simp [applyOp, he]
  · rintro ⟨e, he⟩
    simp [applyOp, he]


/-! ### Id discipline (claim C3) -/

/-- Equation form of the state reached by `createList`. -/
theorem createList_snd (s : Store) (t now : String) :
    (createList s t now).2 =
      { s with todoListsData := s.todoListsData ++ [⟨s.nextListId, t, now⟩],
               nextListId := s.nextListId + 1 } := rfl

/-- Equation form of the state reached by `createItem`. -/
theorem createItem_snd (s : Store) (listId : Nat) (t p now : String) :
    (createItem s listId t p now).2 =
      { s with todoItemsData := s.todoItemsData ++ [⟨s.nextItemId, listId, t, p, false, now⟩],
               nextItemId := s.nextItemId + 1 } := rfl

/-- Referential integrity: every Item's `listId` references a List present
in the List collection. -/
def RefInt (s : Store) : Prop :=
  ∀ i ∈ s.todoItemsData, ∃ l ∈ s.todoListsData, l.id = i.listId

/-- C2 counterexample: the invariant does not hold in every reachable
state — starting from the empty store, one `createItem` call with
`listId = 1` (no List exists at all) is a reachable state whose single
Item references no List.  `createItem` does not preserve the invariant. -/
theorem c2_refint_counterexample :
    ¬ RefInt (runOps initialStore [Op.createItem 1 "Milk" "P2" "t"]) := by
  intro h
  rcases h ⟨1, 1, "Milk", "P2", false, "t"⟩ (by decide) with ⟨l, hl, _⟩
  rw [show (runOps initialStore [Op.createItem 1 "Milk" "P2" "t"]).todoListsData = []
    from rfl] at hl
  exact List.not_mem_nil l hl

/-- The side condition under which an operation preserves referential
integrity: `createItem` must be given the id of a present List, and an
`updateItem` whose update set rewrites `listId` must point it at a
present List.  Every other operation is unconditional. -/
def OpRefSafe (s : Store) : Op → Prop
  | Op.createItem listId _ _ _ => ∃ l ∈ s.todoListsData, l.id = listId
  | Op.updateItem _ u => ∀ v, u.listId = some v → ∃ l ∈ s.todoListsData, l.id = v
  | _ => True

/-- C2 (amended): referential integrity is preserved by every operation
except that `createItem` preserves it only when the given `listId` names a
present List, and `updateItem` only when its update set does not point
`listId` at an absent List; under these side conditions every step keeps
every Item's `listId` referencing a present List. -/
theorem c2_refint_amended (s : Store) (op : Op) (h : RefInt s) (hop : OpRefSafe s op) :
    RefInt (applyOp s op) := by
  cases op with
  | createList t now =>
    show RefInt (createList s t now).2
    rw [createList_snd]
    intro i hi
    rcases h i hi with ⟨l, hl, hid⟩
    exact ⟨l, List.mem_append_left _ hl, hid⟩
  | updateList id t =>
    cases hf : s.todoListsData.find? (fun l => l.id == id) with
    | none =>
      have heq : applyOp s (Op.updateList id t) = s := by simp [applyOp, updateList, hf]
      rw [heq]
      exact h
    | some l0 =>
      have heq : applyOp s (Op.updateList id t) =
          { s with todoListsData := (setFirst (fun l => l.id == id)
              (fun l => { l with title := t }) s.todoListsData) } := by
        simp [applyOp, updateList, hf]
      rw [heq]
      intro i hi
      rcases h i hi with ⟨l', hl', hid⟩
      have hmem : i.listId ∈ (setFirst (fun l => l.id == id)
          (fun l => { l with title := t }) s.todoListsData).map TodoList.id := by
        rw [map_setFirst_congr (fun l => l.id == id) (fun l => { l with title := t })
          TodoList.id s.todoListsData (fun a => rfl)]
        exact List.mem_map.mpr ⟨l', hl', hid⟩
      rcases List.mem_map.mp hmem with ⟨l2, hl2, hid2⟩
      exact ⟨l2, hl2, hid2⟩
  | deleteList did =>
    show RefInt (deleteList s did).2
    intro i hi
    simp only [deleteList, List.mem_filter, bne_iff_ne, ne_eq] at hi
    rcases h i hi.1 with ⟨l, hl, hid⟩
    refine ⟨l, ?_, hid⟩
    simp only [deleteList, List.mem_filter, bne_iff_ne, ne_eq]
    refine ⟨hl, ?_⟩
    rw [hid]
    exact hi.2
  | createItem listId t p now =>
    show RefInt (createItem s listId t p now).2
    rw [createItem_snd]
    intro i hi
    simp only [List.mem_append, List.mem_singleton] at hi
    rcases hi with hi | hi
    · rcases h i hi with ⟨l, hl, hid⟩
      exact ⟨l, hl, hid⟩
    · subst hi
      exact hop
  | updateItem id u =>
    cases hf : s.todoItemsData.find? (fun i => i.id == id) with
    | none =>
      have heq : applyOp s (Op.updateItem id u) = s := by simp [applyOp, updateItem, hf]
      rw [heq]
      exact h
    | some i0 =>
      have heq : applyOp s (Op.updateItem id u) =
          { s with todoItemsData := (setFirst (fun i => i.id == id)
              (fun i => applyUpdates i u) s.todoItemsData) } := by
        simp [applyOp, updateItem, hf]
      rw [heq]
      intro x hx
      have hx' : x ∈ setFirst (fun i => i.id == id) (fun i => applyUpdates i u)
          s.todoItemsData := hx
      rcases mem_setFirst _ _ _ _ hx' with hmem | ⟨y, hy, _, rfl⟩
      · exact h x hmem
      · cases hu : u.listId with
        | none =>
          have hsame : (applyUpdates y u).listId = y.listId := by simp [applyUpdates, hu]
          show ∃ l ∈ s.todoListsData, l.id = (applyUpdates y u).listId
          rw [hsame]
          exact h y hy
        | some v =>
          have hv : (applyUpdates y u).listId = v := by simp [applyUpdates, hu]
          show ∃ l ∈ s.todoListsData, l.id = (applyUpdates y u).listId
          rw [hv]
          exact hop v hu
  | deleteItem id =>
    show RefInt (deleteItem s id).2
    intro i hi
    simp only [deleteItem, List.mem_filter] at hi
    exact h i hi.1
  | toggleItem id =>
    cases hf : s.todoItemsData.find? (fun i => i.id == id) with
    | none =>
      have heq : applyOp s (Op.toggleItem id) = s := by simp [applyOp, toggleItem, hf]
      rw [heq]
      exact h
    | some i0 =>
      have heq : applyOp s (Op.toggleItem id) =
          { s with todoItemsData := (setFirst (fun i => i.id == id)
              (fun i => { i with completed := !i.completed }) s.todoItemsData) } := by
        simp [applyOp, toggleItem, hf]
      rw [heq]
      intro x hx
      have hx' : x ∈ setFirst (fun i => i.id == id)
          (fun i => { i with completed := !i.completed }) s.todoItemsData := hx
      rcases mem_setFirst _ _ _ _ hx' with hmem | ⟨y, hy, _, rfl⟩
      · exact h x hmem
      · show ∃ l ∈ s.todoListsData, l.id = y.listId
        exact h y hy
  | getAllLists => exact h
  | getItemsByList listId => exact h

theorem c2_refint_amended_witness :
    RefInt initialStore ∧ OpRefSafe initialStore (Op.createList "A" "t") ∧
    RefInt (applyOp initialStore (Op.createList "A" "t")) :=
  ⟨fun i hi => absurd hi (List.not_mem_nil i), True.intro,
    c2_refint_amended initialStore (Op.createList "A" "t")
      (fun i hi => absurd hi (List.not_mem_nil i)) True.intro⟩


/-! ### Field immutability under updates (claim C7) -/

theorem mem_setFirst_of_find? (p : α → Bool) (f : α → α) (l : List α) (a : α)
    (h : List.find? p l = some a) : f a ∈ setFirst p f l := by
  induction l with
  | nil => simp at h
  | cons x xs ih =>
    by_cases hp : p x = true
    · rw [List.find?_cons_of_pos _ hp] at h
      injection h with h
      subst h
      simp [setFirst, hp]
    · rw [List.find?_cons_of_neg _ (by simpa using hp)] at h
      simp only [setFirst, hp, if_false]
      exact List.mem_cons_of_mem x (ih h)

/-- C7 counterexample: `Object.assign(item, updates)` protects no field, so
an update set that contains `createdAt` rewrites it — on a store holding
one Item stamped `"t0"`, `updateItem` with the partial field set
`{ createdAt: "t9" }` returns and stores the Item restamped `"t9"`. -/
theorem c7_counterexample :
    (Store.mk [] [⟨1, 1, "Milk", "P2", false, "t0"⟩] 1 2).todoItemsData.map TodoItem.createdAt
        = ["t0"] ∧
    updateItem (Store.mk [] [⟨1, 1, "Milk", "P2", false, "t0"⟩] 1 2) 1
        (ItemUpdates.mk none none none none none (some "t9")) =
      Except.ok (⟨1, 1, "Milk", "P2", false, "t9"⟩,
        Store.mk [] [⟨1, 1, "Milk", "P2", false, "t9"⟩] 1 2) :=
  ⟨rfl, rfl⟩

/-- C7 (amended): every mutating operation on an existing entity leaves
that entity's `id` and `createdAt` unchanged — for `updateItem` under the
proviso, forced by the unconstrained `Object.assign` merge, that the
partial field set itself contains neither `id` nor `createdAt`.  Here `l`
(resp. `i`) is the entity the call matches and mutates: the one `find`
returns for `id0`.  The result read back carries exactly that entity's
`id` and `createdAt` — `updateList` rewrites only its `title`,
`toggleItem` only its `completed` — and is the entity now stored.  The
create-"Groceries"-then-update-to-"Shopping" round trip reads back title
"Shopping" with the id and `createdAt` of creation. -/
theorem c7_immutable_fields (s : Store) (id0 : Nat) (t : String) (u : ItemUpdates)
    (hid : u.id = none) (hca : u.createdAt = none) :
    (∀ l, s.todoListsData.find? (fun x => x.id == id0) = some l →
      ∀ r s', updateList s id0 t = Except.ok (r, s') →
        r.id = l.id ∧ r.createdAt = l.createdAt ∧ r.title = t ∧ r ∈ s'.todoListsData) ∧
    (∀ i, s.todoItemsData.find? (fun x => x.id == id0) = some i →
      ∀ r s', updateItem s id0 u = Except.ok (r, s') →
        r.id = i.id ∧ r.createdAt = i.createdAt ∧ r ∈ s'.todoItemsData) ∧
    (∀ i, s.todoItemsData.find? (fun x => x.id == id0) = some i →
      ∀ r s', toggleItem s id0 = Except.ok (r, s') →
        r.id = i.id ∧ r.createdAt = i.createdAt ∧ r ∈ s'.todoItemsData) ∧
    (∀ now, updateList (createList initialStore "Groceries" now).2
        (createList initialStore "Groceries" now).1.id "Shopping" =
      Except.ok (⟨(createList initialStore "Groceries" now).1.id, "Shopping", now⟩,
        Store.mk [⟨1, "Shopping", now⟩] [] 2 1)) := by
  refine ⟨?_, ?_, ?_, fun now => rfl⟩
  · intro l hfind r s' hok
    rw [updateList] at hok
    simp only [hfind, Except.ok.injEq, Prod.mk.injEq] at hok
    obtain ⟨hr, hs⟩ := hok
    subst hr
    subst hs
    exact ⟨rfl, rfl, rfl, mem_setFirst_of_find? _ _ _ _ hfind⟩
  · intro i hfind r s' hok
    rw [updateItem] at hok
    simp only [hfind, Except.ok.injEq, Prod.mk.injEq] at hok
    obtain ⟨hr, hs⟩ := hok
    subst hr
    subst hs
    refine ⟨?_, ?_, mem_setFirst_of_find? _ _ _ _ hfind⟩
    · simp [applyUpdates, hid]
    · simp [applyUpdates, hca]
  · intro i hfind r s' hok
    rw [toggleItem] at hok
    simp only [hfind, Except.ok.injEq, Prod.mk.injEq] at hok
    obtain ⟨hr, hs⟩ := hok
    subst hr
    subst hs
    exact ⟨rfl, rfl, mem_setFirst_of_find? _ _ _ _ hfind⟩

/-- Concrete store for the C7 witness. -/
def c7Store : Store :=
  Store.mk [⟨1, "A", "ta"⟩] [⟨1, 1, "Milk", "P2", false, "ti"⟩] 2 2

/-- Concrete partial field set for the C7 witness: rewrites `listId`,
`title`, `priority` and `completed`, but not `id` or `createdAt`. -/
def c7U : ItemUpdates :=
  ItemUpdates.mk none (some 1) (some "Bread") (some "P1") (some true) none

theorem c7_immutable_fields_witness :
    c7U.id = none ∧ c7U.createdAt = none ∧
    ((∀ l, c7Store.todoListsData.find? (fun x => x.id == 1) = some l →
      ∀ r s', updateList c7Store 1 "B" = Except.ok (r, s') →
        r.id = l.id ∧ r.createdAt = l.createdAt ∧ r.title = "B" ∧ r ∈ s'.todoListsData) ∧
    (∀ i, c7Store.todoItemsData.find? (fun x => x.id == 1) = some i →
      ∀ r s', updateItem c7Store 1 c7U = Except.ok (r, s') →
        r.id = i.id ∧ r.createdAt = i.createdAt ∧ r ∈ s'.todoItemsData) ∧
    (∀ i, c7Store.todoItemsData.find? (fun x => x.id == 1) = some i →
      ∀ r s', toggleItem c7Store 1 = Except.ok (r, s') →
        r.id = i.id ∧ r.createdAt = i.createdAt ∧ r ∈ s'.todoItemsData) ∧
    (∀ now, updateList (createList initialStore "Groceries" now).2
        (createList initialStore "Groceries" now).1.id "Shopping" =
      Except.ok (⟨(createList initialStore "Groceries" now).1.id, "Shopping", now⟩,
        Store.mk [⟨1, "Shopping", now⟩] [] 2 1))) :=
  ⟨rfl, rfl, c7_immutable_fields c7Store 1 "B" c7U rfl rfl⟩

end MockApi

/-!
### Reference semantics of the reads (claim C9)

`getAllLists` returns `[...todoListsData]` and `getItemsByList` returns a
`filter` result: both are fresh arrays, but JS arrays hold object
references, so the List/Item objects inside are the store's own objects.
To state what a caller can do by mutating a returned value, this model
makes the object heap explicit: the collections are arrays of references,
and the in-place mutations of `mockApi.js` (and of a misbehaving caller)
are heap writes.
-/

namespace RefModel

/-- A List object on the heap: `{ id, title, createdAt }`. -/
structure ListObj where
  id : Nat
  title : String
  createdAt : String
deriving DecidableEq, Repr

/-- An Item object on the heap. -/
structure ItemObj where
  id : Nat
  listId : Nat
  title : String
  priority : String
  completed : Bool
  createdAt : String
deriving DecidableEq, Repr

/-- Dereference an address in a heap region. -/
def heapGet (h : List (Nat × α)) (a : Nat) : Option α :=
  Option.map Prod.snd (h.find? (fun p => p.1 == a))

/-- Overwrite the object at an address of a heap region. -/
def heapSet (h : List (Nat × α)) (a : Nat) (o : α) : List (Nat × α) :=
  h.map (fun p => if p.1 == a then (p.1, o) else p)

/-- The module state of `mockApi.js` under reference semantics: the two
arrays hold references into the object heaps. -/
structure RStore where
  listHeap : List (Nat × ListObj)
  itemHeap : List (Nat × ItemObj)
  todoListsData : List Nat
  todoItemsData : List Nat
  nextListId : Nat
  nextItemId : Nat
  nextAddr : Nat
deriving DecidableEq, Repr

/-- The state at module load. -/
def initialRStore : RStore := ⟨[], [], [], [], 1, 1, 0⟩

/-- `createList(title)`: allocates the new object and pushes its reference. -/
def createList (s : RStore) (title now : String) : Nat × RStore :=
  (s.nextAddr,
    { s with listHeap := s.listHeap ++ [(s.nextAddr, ⟨s.nextListId, title, now⟩)],
             todoListsData := s.todoListsData ++ [s.nextAddr],
             nextListId := s.nextListId + 1,
             nextAddr := s.nextAddr + 1 })

/-- `createItem(listId, title, priority)` under reference semantics. -/
def createItem (s : RStore) (listId : Nat) (title priority now : String) : Nat × RStore :=
  (s.nextAddr,
    { s with itemHeap :=
        (s.itemHeap ++ [(s.nextAddr, ⟨s.nextItemId, listId, title, priority, false, now⟩)]),
             todoItemsData := s.todoItemsData ++ [s.nextAddr],
             nextItemId := s.nextItemId + 1,
             nextAddr := s.nextAddr + 1 })

/-- `getAllLists()`: `[...todoListsData]` is a fresh array carrying the
same references; the store state is untouched. -/
def getAllLists (s : RStore) : List Nat × RStore :=
  (s.todoListsData, s)

/-- `getItemsByList(listId)`: `filter` builds a fresh array of those
references whose object's `listId` matches; the store state is untouched. -/
def getItemsByList (s : RStore) (listId : Nat) : List Nat × RStore :=
  (s.todoItemsData.filter (fun a =>
    match heapGet s.itemHeap a with
    | some o => o.listId == listId
    | none => false), s)

/-- A caller executing `obj.title = t` on a List object it reached through
a returned array: a heap write through the shared reference, performed
outside any store operation. -/
def callerAssignListTitle (s : RStore) (a : Nat) (t : String) : RStore :=
  { s with listHeap :=
      (match heapGet s.listHeap a with
      | some o => heapSet s.listHeap a { o with title := t }
      | none => s.listHeap) }

/-- The List collection as the store's own operations observe it: each
reference of `todoListsData` dereferenced. -/
def observeLists (s : RStore) : List (Option ListObj) :=
  s.todoListsData.map (heapGet s.listHeap)

/-- C9 counterexample: the reads return shallow copies — the array is
fresh, but the objects inside are shared with the store.  After one
`createList`, the array `getAllLists` returns holds the reference `0`;
the caller assigning `title` through that reference changes the List that
the store's subsequent operations observe, so mutating part of a returned
value does corrupt the store. -/
theorem c9_counterexample :
    (getAllLists (createList initialRStore "Groceries" "t").2).1 = [0] ∧
    observeLists (createList initialRStore "Groceries" "t").2
        = [some ⟨1, "Groceries", "t"⟩] ∧
    observeLists (callerAssignListTitle (createList initialRStore "Groceries" "t").2 0 "Hacked")
        = [some ⟨1, "Hacked", "t"⟩] ∧
    getAllLists (callerAssignListTitle (createList initialRStore "Groceries" "t").2 0 "Hacked")
        = ([0], callerAssignListTitle (createList initialRStore "Groceries" "t").2 0 "Hacked") :=
  ⟨rfl, rfl, rfl, rfl⟩

/-- C9 (amended): the read operations leave the store state unchanged and
return fresh arrays — `getAllLists` the List references in insertion
order, `getItemsByList` a filtered fresh array — but the copies are
shallow: every reference they return is one the store itself holds, so a
caller mutating a field through a returned reference is mutating the
store's own object (as the counterexample exhibits). -/
theorem c9_reads_shallow (s : RStore) (listId : Nat) :
    (getAllLists s).2 = s ∧
    (getItemsByList s listId).2 = s ∧
    (getAllLists s).1 = s.todoListsData ∧
    (∀ a ∈ (getItemsByList s listId).1, a ∈ s.todoItemsData) := by
  refine ⟨rfl, rfl, rfl, ?_⟩
  intro a ha
  exact List.mem_of_mem_filter ha

end RefModel
